import Mathlib

/-!
Verification of the presence / message-fanout core of the chat backend
(`server.js`).

The socket layer of the server keeps two in-memory structures:

* `connectedUsers` — a plain JS object mapping `userId => socket.id`,
  mutated by the `register` and `disconnect` handlers;
* `typingUsers` — a JS object mapping `receiverId => Set<senderId>`,
  mutated by the `typing` and `stop_typing` handlers.

JS objects with string keys iterate in insertion order, and assigning to an
existing key keeps the key at its original position; we therefore embed both
objects as association lists (`List (key × value)`) in insertion order, a JS
`Set` as a duplicate-free list in insertion order, and every handler as a pure
function from the relevant state (plus the outcome of the store calls it makes)
to the updated state together with the list of socket events it emits.
-/

namespace ChatApp

abbrev UserId := String
abbrev SocketId := String
abbrev RoomId := String
abbrev MsgId := String
abbrev Timestamp := String

/-- `connectedUsers` (`userId => socket.id`), as an association list in JS
insertion order. -/
abbrev Presence := List (UserId × SocketId)

/-- The `register` handler: `connectedUsers[userId] = socket.id`.  If the key
is already present its value is replaced in place (JS keeps the key's
position); otherwise the new binding is appended. -/
def register (userId : UserId) (sid : SocketId) : Presence → Presence
  | [] => [(userId, sid)]
  | (u, s) :: rest =>
      if u = userId then (u, sid) :: rest
      else (u, s) :: register userId sid rest

/-- Reading `connectedUsers[userId]`: `none` models JS `undefined`. -/
def lookup (userId : UserId) : Presence → Option SocketId
  | [] => none
  | (u, s) :: rest => if u = userId then some s else lookup userId rest

/-- The `disconnect` handler's effect on `connectedUsers`: iterate the entries
in insertion order, `delete` the first entry whose stored socket id equals the
disconnecting socket's id, then `break`. -/
def disconnect (sid : SocketId) : Presence → Presence
  | [] => []
  | (u, s) :: rest =>
      if s = sid then rest
      else (u, s) :: disconnect sid rest

/-- A socket-layer event that mutates `connectedUsers` via `register`. -/
inductive PresenceEvent where
  | register (userId : UserId) (sid : SocketId)
deriving DecidableEq

/-- Apply one `register` event to the presence map. -/
def applyEvent (m : Presence) : PresenceEvent → Presence
  | .register u s => register u s m

/-- Run a sequence of `register` events starting from the empty map
(`const connectedUsers = {}`). -/
def runEvents (es : List PresenceEvent) : Presence :=
  es.foldl applyEvent []

/-- The socket id supplied by the most recent `register` event for `u` in the
sequence, if any. -/
def lastRegister (u : UserId) (es : List PresenceEvent) : Option SocketId :=
  es.foldl
    (fun acc e =>
      match e with
      | .register u' s => if u' = u then some s else acc)
    none

theorem lookup_register (userId u' : UserId) (s : SocketId) (m : Presence) :
    lookup userId (register u' s m) =
      if u' = userId then some s else lookup userId m := by
  induction m with
  | nil => by_cases h : u' = userId <;> simp [register, lookup, h]
  | cons p rest ih =>
      obtain ⟨a, b⟩ := p
      by_cases h1 : a = u'
      · subst h1
        by_cases h2 : a = userId
        · subst h2
          simp [register, lookup]
        · simp [register, lookup, h2]
      · by_cases h2 : a = userId
        · subst h2
          have h3 : u' ≠ a := fun h => h1 h.symm
          simp [register, lookup, h1, h3]
        · simp [register, lookup, h1, h2, ih]

theorem keys_register (u : UserId) (s : SocketId) (m : Presence) :
    (register u s m).map Prod.fst =
      if u ∈ m.map Prod.fst then m.map Prod.fst else m.map Prod.fst ++ [u] := by
  induction m with
  | nil => simp [register]
  | cons p rest ih =>
      obtain ⟨a, b⟩ := p
      by_cases h1 : a = u
      · subst h1
        simp [register]
      · have h2 : u ≠ a := fun h => h1 h.symm
        by_cases h3 : u ∈ rest.map Prod.fst <;>
          simp [register, h1, h2, h3, ih]

theorem register_keys_nodup (u : UserId) (s : SocketId) (m : Presence)
    (h : (m.map Prod.fst).Nodup) : ((register u s m).map Prod.fst).Nodup := by
  rw [keys_register]
  by_cases hm : u ∈ m.map Prod.fst
  · simpa [hm] using h
  · simpa [hm] using List.Nodup.append h (List.nodup_singleton u)
      (by simpa using hm)

theorem runEvents_keys_nodup (es : List PresenceEvent) :
    ((runEvents es).map Prod.fst).Nodup := by
  suffices h : ∀ m : Presence, (m.map Prod.fst).Nodup →
      ((es.foldl applyEvent m).map Prod.fst).Nodup by
    exact h [] (by simp)
  induction es with
  | nil => intro m hm; simpa using hm
  | cons e rest ih =>
      intro m hm
      cases e with
      | register u s =>
          exact ih (register u s m) (register_keys_nodup u s m hm)

theorem lookup_runEvents (u : UserId) (es : List PresenceEvent) :
    lookup u (runEvents es) = lastRegister u es := by
  suffices h : ∀ m : Presence,
      lookup u (es.foldl applyEvent m) =
        es.foldl
          (fun acc e =>
            match e with
            | PresenceEvent.register u' s => if u' = u then some s else acc)
          (lookup u m) by
    simpa [runEvents, lastRegister, lookup] using h []
  induction es with
  | nil => intro m; simp
  | cons e rest ih =>
      intro m
      cases e with
      | register u' s =>
          simp only [List.foldl_cons, applyEvent]
          rw [ih (register u' s m), lookup_register]

/-- Claim C1: for every sequence of `register` events (starting from the empty
`connectedUsers` map), the presence map binds at most one socket id per userId
— its key list has no duplicates — and the socket id bound to a userId is
exactly the one supplied by the most recent `register` event for that userId
(last register wins, overwriting silently). -/
theorem presence_uniqueness (es : List PresenceEvent) :
    ((runEvents es).map Prod.fst).Nodup ∧
      ∀ u : UserId, lookup u (runEvents es) = lastRegister u es :=
  ⟨runEvents_keys_nodup es, fun u => lookup_runEvents u es⟩

/-- Claim C2: the `disconnect` handler only removes an entry whose stored
socket id equals the disconnecting socket's id.  Hence any user bound to a
different handle keeps its binding: in particular after user `A` re-registers
with handle `H2`, a stale disconnect for the old handle `H1 ≠ H2` leaves `A`
bound to `H2`. -/
theorem stale_disconnect_guard (m : Presence) (a : UserId) (h1 h2 : SocketId)
    (hbound : lookup a m = some h2) (hne : h2 ≠ h1) :
    lookup a (disconnect h1 m) = some h2 := by
  induction m with
  | nil => simp [lookup] at hbound
  | cons p rest ih =>
      obtain ⟨u, s⟩ := p
      by_cases hu : u = a
      · subst hu
        have hs : s = h2 := by simpa [lookup] using hbound
        subst hs
        simp [disconnect, lookup, hne]
      · have hrest : lookup a rest = some h2 := by
          simpa [lookup, hu] using hbound
        by_cases hsid : s = h1
        · simpa [disconnect, hsid] using hrest
        · simpa [disconnect, hsid, lookup, hu] using ih hrest

/-- Witness for C2, on the claim's own scenario: user `A` registers with
handle `H1`, then with handle `H2`; a disconnect for the stale handle `H1`
leaves `A` bound to `H2`. -/
theorem stale_disconnect_guard_witness :
    lookup "A" (register "A" "H2" (register "A" "H1" [])) = some "H2" ∧
      ("H2" : SocketId) ≠ "H1" ∧
      lookup "A" (disconnect "H1" (register "A" "H2" (register "A" "H1" []))) =
        some "H2" :=
  ⟨by decide, by decide,
    stale_disconnect_guard (register "A" "H2" (register "A" "H1" []))
      "A" "H1" "H2" (by decide) (by decide)⟩

/-- Claim C10: a `disconnect` removes at most one entry (the scan breaks at
the first entry whose stored socket id matches): either no entry matches and
the map is unchanged, or the map splits as `l1 ++ (u, sid) :: l2` with no match
in `l1` and the result is exactly `l1 ++ l2`, every other entry left in place.
Consequently the length drops by at most one, and when two userIds are bound
to the same socket id the second one remains bound to the now-closed handle. -/
theorem disconnect_removes_at_most_one (sid : SocketId) (m : Presence) :
    (m.length - 1 ≤ (disconnect sid m).length) ∧
      ((disconnect sid m = m ∧ m.all (fun p => p.2 != sid) = true) ∨
        ∃ l1 u l2, m = l1 ++ (u, sid) :: l2 ∧
          l1.all (fun p => p.2 != sid) = true ∧
          disconnect sid m = l1 ++ l2) ∧
      ∀ (u1 u2 : UserId) (rest : Presence),
        lookup u2 (disconnect sid ((u1, sid) :: (u2, sid) :: rest)) = some sid := by
  refine ⟨?_, ?_, ?_⟩
  · induction m with
    | nil => simp [disconnect]
    | cons p rest ih =>
        obtain ⟨u, s⟩ := p
        by_cases hs : s = sid
        · simp [disconnect, hs]
        · simp only [disconnect, if_neg hs, List.length_cons]
          omega
  · induction m with
    | nil => exact Or.inl ⟨rfl, by simp⟩
    | cons p rest ih =>
        obtain ⟨u, s⟩ := p
        by_cases hs : s = sid
        · subst hs
          exact Or.inr ⟨[], u, rest, by simp, by simp, by simp [disconnect]⟩
        · rcases ih with ⟨heq, hall⟩ | ⟨l1, u', l2, hsplit, hall, heq⟩
          · exact Or.inl ⟨by simp [disconnect, hs, heq], by simp [hall, hs]⟩
          · refine Or.inr ⟨(u, s) :: l1, u', l2, by simp [hsplit], ?_, ?_⟩
            · simp [hall, hs]
            · simp [disconnect, hs, heq]
  · intro u1 u2 rest
    simp [disconnect, lookup]

/-! ## Message fanout: the `send_message` and `send_room_message` handlers -/

/-- Payload of a client `send_message` event: `{ senderId, receiverId, message }`. -/
structure MessagePayload where
  senderId : UserId
  receiverId : UserId
  message : String
deriving DecidableEq

/-- A row of the `messages` table, as inserted by the `send_message` handler. -/
structure MessageRow where
  id : MsgId
  sender_id : UserId
  receiver_id : UserId
  message_text : String
  timestamp : Timestamp
deriving DecidableEq

/-- Payload of a client `send_room_message` event: `{ senderId, roomId, message }`. -/
structure RoomMessagePayload where
  senderId : UserId
  roomId : RoomId
  message : String
deriving DecidableEq

/-- A row of the `room_messages` table, as inserted by the `send_room_message`
handler. -/
structure RoomMessageRow where
  id : MsgId
  room_id : RoomId
  sender_id : UserId
  message_text : String
  timestamp : Timestamp
deriving DecidableEq

/-- A server→client socket event, tagged with the socket it is delivered to. -/
inductive Emit where
  | receiveMessage (target : SocketId) (id : MsgId) (senderId receiverId : UserId)
      (message : String) (timestamp : Timestamp)
  | messageSent (target : SocketId) (id : MsgId) (senderId receiverId : UserId)
      (message : String) (timestamp : Timestamp)
  | roomMessage (target : SocketId) (id : MsgId) (roomId : RoomId)
      (senderId : UserId) (sender_name : String) (message : String)
      (timestamp : Timestamp)
  | roomMessageSent (target : SocketId) (id : MsgId) (roomId : RoomId)
      (senderId : UserId) (sender_name : String) (message : String)
      (timestamp : Timestamp)
  | userTyping (target : SocketId) (senderId : UserId)
  | userStoppedTyping (target : SocketId) (senderId : UserId)
  | errorMessage (target : SocketId) (error : String)
deriving DecidableEq

def Emit.isReceiveMessage : Emit → Bool
  | .receiveMessage .. => true
  | _ => false

def Emit.isMessageSent : Emit → Bool
  | .messageSent .. => true
  | _ => false

def Emit.isRoomMessage : Emit → Bool
  | .roomMessage .. => true
  | _ => false

/-- Whether the event is one the handler emits with `socket.emit(...)`, i.e.
directly to the submitting connection (a `message_sent` acknowledgement or an
`error_message`), rather than routed through the presence map or a room. -/
def Emit.isAck : Emit → Bool
  | .messageSent .. => true
  | .errorMessage .. => true
  | _ => false

/-- Re-target an event to another socket (used only to state that two runs of
a handler differ solely in where the acknowledgement goes). -/
def Emit.withTarget (t : SocketId) : Emit → Emit
  | .receiveMessage _ id s r m ts => .receiveMessage t id s r m ts
  | .messageSent _ id s r m ts => .messageSent t id s r m ts
  | .roomMessage _ id ro s n m ts => .roomMessage t id ro s n m ts
  | .roomMessageSent _ id ro s n m ts => .roomMessageSent t id ro s n m ts
  | .userTyping _ s => .userTyping t s
  | .userStoppedTyping _ s => .userStoppedTyping t s
  | .errorMessage _ e => .errorMessage t e

/-- The `send_message` handler.  `conn` is the current `connectedUsers` map,
`insertOk` the outcome of the `INSERT INTO messages` store call (`false`
models the insert throwing), `sock` the submitting connection's socket id,
`id`/`timestamp` the freshly generated `uuidv4()` and `getTimeStamp()` values.
Returns the rows inserted into `messages` and the events emitted:

* on insert success — a `receive_message` to the receiver's socket if the
  receiver is present in `connectedUsers`, then a `message_sent`
  acknowledgement to the submitting socket;
* on insert failure — only an `error_message` to the submitting socket. -/
def sendMessage (conn : Presence) (insertOk : Bool) (sock : SocketId)
    (id : MsgId) (timestamp : Timestamp) (p : MessagePayload) :
    List MessageRow × List Emit :=
  if insertOk then
    let row : MessageRow :=
      ⟨id, p.senderId, p.receiverId, p.message, timestamp⟩
    let deliver :=
      match lookup p.receiverId conn with
      | some rsid =>
          [Emit.receiveMessage rsid id p.senderId p.receiverId p.message timestamp]
      | none => []
    ([row],
      deliver ++ [Emit.messageSent sock id p.senderId p.receiverId p.message timestamp])
  else
    ([], [Emit.errorMessage sock "Failed to send message."])

/-- The `send_room_message` handler.  `rooms` gives the sockets currently
subscribed to each room (`socket.join(roomId)`), `userLookup` the outcome of
`SELECT username FROM users WHERE id = senderId` (`none` models no row, which
makes the handler throw `User not found`), `insertOk` the outcome of the
`INSERT INTO room_messages` store call.  On success the handler broadcasts an
identical `room_message` payload to every socket subscribed to the room
(`io.to(roomId).emit`), then acknowledges the submitting socket with
`room_message_sent`; on either failure it emits only an `error_message`. -/
def sendRoomMessage (rooms : RoomId → List SocketId) (userLookup : Option String)
    (insertOk : Bool) (sock : SocketId) (id : MsgId) (timestamp : Timestamp)
    (p : RoomMessagePayload) : List RoomMessageRow × List Emit :=
  match userLookup with
  | none => ([], [Emit.errorMessage sock "Failed to send room message."])
  | some username =>
      if insertOk then
        let row : RoomMessageRow :=
          ⟨id, p.roomId, p.senderId, p.message, timestamp⟩
        let broadcast := (rooms p.roomId).map
          (fun t => Emit.roomMessage t id p.roomId p.senderId username p.message timestamp)
        ([row],
          broadcast ++
            [Emit.roomMessageSent sock id p.roomId p.senderId username p.message timestamp])
      else
        ([], [Emit.errorMessage sock "Failed to send room message."])

/-- Claim C3: when the `messages`-table insert fails, the `send_message`
handler inserts no row and emits neither a `receive_message` nor a
`message_sent` event — the only event is the `error_message` to the sender's
own socket; no delivery is attempted after a failed persist. -/
theorem durability_precedes_delivery (conn : Presence) (sock : SocketId)
    (id : MsgId) (ts : Timestamp) (p : MessagePayload) :
    (sendMessage conn false sock id ts p).1 = [] ∧
      (sendMessage conn false sock id ts p).2.all
        (fun e => ! e.isReceiveMessage && ! e.isMessageSent) = true ∧
      (sendMessage conn false sock id ts p).2 =
        [Emit.errorMessage sock "Failed to send message."] :=
  ⟨rfl, rfl, rfl⟩

/-- Claim C7: when the `messages`-table insert succeeds, the submitting socket
receives exactly one `message_sent` acknowledgement, carrying the generated
message id and timestamp, whatever the presence map says about the receiver
(online or offline). -/
theorem sender_acknowledgement (conn : Presence) (sock : SocketId)
    (id : MsgId) (ts : Timestamp) (p : MessagePayload) :
    (sendMessage conn true sock id ts p).2.filter Emit.isMessageSent =
      [Emit.messageSent sock id p.senderId p.receiverId p.message ts] := by
  cases h : lookup p.receiverId conn <;>
    simp [sendMessage, h, Emit.isMessageSent, Emit.isReceiveMessage]

/-- Claim C9: the effect of `send_message` is determined by the payload, the
presence map and the store alone — the handler never consults any identity the
submitting connection registered.  Two connections submitting the same payload
in the same state produce the same inserted rows and the same events, except
that the direct acknowledgements (`message_sent`/`error_message`) go to the
respective submitting socket; in particular (second conjunct) a socket that
appears nowhere in the presence map persists and delivers a message under an
arbitrary `senderId`. -/
theorem send_message_ignores_registration (conn : Presence) (insertOk : Bool)
    (s1 s2 : SocketId) (id : MsgId) (ts : Timestamp) (p : MessagePayload) :
    sendMessage conn insertOk s2 id ts p =
      ((sendMessage conn insertOk s1 id ts p).1,
        (sendMessage conn insertOk s1 id ts p).2.map
          (fun e => if e.isAck then e.withTarget s2 else e)) ∧
      sendMessage [("B", "sB")] true "sX" "id1" "t1"
          ⟨"A", "B", "hi"⟩ =
        ([⟨"id1", "A", "B", "hi", "t1"⟩],
          [Emit.receiveMessage "sB" "id1" "A" "B" "hi" "t1",
            Emit.messageSent "sX" "id1" "A" "B" "hi" "t1"]) := by
  constructor
  · cases insertOk
    · simp [sendMessage, Emit.isAck, Emit.withTarget]
    · cases h : lookup p.receiverId conn <;>
        simp [sendMessage, h, Emit.isAck, Emit.withTarget]
  · decide

/-- Claim C6: `send_room_message` is a hard failure before any state change
when the sender does not resolve to a user (`User not found` is thrown before
the insert): no `room_messages` row, no `room_message` broadcast, no
`room_message_sent` acknowledgement — only an `error_message`; and likewise on
persistence failure the handler fails before any broadcast. -/
theorem unknown_sender_hard_failure (rooms : RoomId → List SocketId)
    (insertOk : Bool) (sock : SocketId) (id : MsgId) (ts : Timestamp)
    (p : RoomMessagePayload) :
    sendRoomMessage rooms none insertOk sock id ts p =
      ([], [Emit.errorMessage sock "Failed to send room message."]) ∧
      ∀ name : String,
        sendRoomMessage rooms (some name) false sock id ts p =
          ([], [Emit.errorMessage sock "Failed to send room message."]) :=
  ⟨rfl, fun _ => rfl⟩

/-- Claim C5: on a successful `send_room_message`, the `room_message` events
emitted are exactly one per socket subscribed to the room, all carrying the
identical payload (id, roomId, senderId, sender name, body, timestamp) — a
single broadcast, with no separate private `room_message` echo — and when the
sender's own socket is subscribed it receives that same broadcast event. -/
theorem room_broadcast_symmetry (rooms : RoomId → List SocketId) (name : String)
    (sock : SocketId) (id : MsgId) (ts : Timestamp) (p : RoomMessagePayload)
    (hmem : sock ∈ rooms p.roomId) :
    (sendRoomMessage rooms (some name) true sock id ts p).2.filter
        Emit.isRoomMessage =
      (rooms p.roomId).map
        (fun t => Emit.roomMessage t id p.roomId p.senderId name p.message ts) ∧
      Emit.roomMessage sock id p.roomId p.senderId name p.message ts ∈
        (sendRoomMessage rooms (some name) true sock id ts p).2 := by
  have hfilter : ∀ l : List SocketId,
      (l.map (fun t =>
          Emit.roomMessage t id p.roomId p.senderId name p.message ts)).filter
        Emit.isRoomMessage =
      l.map (fun t =>
        Emit.roomMessage t id p.roomId p.senderId name p.message ts) := by
    intro l
    induction l with
    | nil => rfl
    | cons a l ih => simp [Emit.isRoomMessage, ih]
  constructor
  · simp [sendRoomMessage, List.filter_append, Emit.isRoomMessage,
      hfilter (rooms p.roomId)]
  · have hmem' : Emit.roomMessage sock id p.roomId p.senderId name p.message ts ∈
        (rooms p.roomId).map (fun t =>
            Emit.roomMessage t id p.roomId p.senderId name p.message ts) ++
          [Emit.roomMessageSent sock id p.roomId p.senderId name p.message ts] :=
      List.mem_append.2 (Or.inl (List.mem_map.2 ⟨sock, hmem, rfl⟩))
    simpa [sendRoomMessage] using hmem'

/-- Witness for C5: in a room `room1` with subscribed sockets `s1` and `s2`,
the sender on `s1` and the other member `s2` receive the identical
`room_message` event. -/
theorem room_broadcast_symmetry_witness :
    (("s1" : SocketId) ∈
        (fun r => if r = "room1" then ["s1", "s2"] else [])
          (RoomMessagePayload.mk "A" "room1" "hi").roomId) ∧
      ((sendRoomMessage (fun r => if r = "room1" then ["s1", "s2"] else [])
            (some "alice") true "s1" "id1" "t1"
            (RoomMessagePayload.mk "A" "room1" "hi")).2.filter
          Emit.isRoomMessage =
        ((fun r => if r = "room1" then ["s1", "s2"] else [])
            (RoomMessagePayload.mk "A" "room1" "hi").roomId).map
          (fun t => Emit.roomMessage t "id1" "room1" "A" "alice" "hi" "t1") ∧
        Emit.roomMessage "s1" "id1" "room1" "A" "alice" "hi" "t1" ∈
          (sendRoomMessage (fun r => if r = "room1" then ["s1", "s2"] else [])
              (some "alice") true "s1" "id1" "t1"
              (RoomMessagePayload.mk "A" "room1" "hi")).2) :=
  ⟨by decide,
    room_broadcast_symmetry (fun r => if r = "room1" then ["s1", "s2"] else [])
      "alice" "s1" "id1" "t1" (RoomMessagePayload.mk "A" "room1" "hi")
      (by decide)⟩

/-! ## Typing state: the `typing`, `stop_typing` and `disconnect` handlers -/

/-- `typingUsers` (`receiverId => Set<senderId>`), as an association list in JS
insertion order; each `Set` is a duplicate-free list in insertion order. -/
abbrev TypingUsers := List (UserId × List UserId)

/-- Reading `typingUsers[receiverId]` (the empty set models JS `undefined`,
which the handlers only ever test for emptiness/absence). -/
def typingSet (receiverId : UserId) : TypingUsers → List UserId
  | [] => []
  | (r, ss) :: rest => if r = receiverId then ss else typingSet receiverId rest

/-- JS `Set.prototype.add`: appends the element if absent, else no-op. -/
def setAdd (x : UserId) (ss : List UserId) : List UserId :=
  if x ∈ ss then ss else ss ++ [x]

/-- The `typing` handler's effect on `typingUsers`:
`if (!typingUsers[receiverId]) typingUsers[receiverId] = new Set();
typingUsers[receiverId].add(senderId)`. -/
def typingAdd (senderId receiverId : UserId) : TypingUsers → TypingUsers
  | [] => [(receiverId, [senderId])]
  | (r, ss) :: rest =>
      if r = receiverId then (r, setAdd senderId ss) :: rest
      else (r, ss) :: typingAdd senderId receiverId rest

/-- The `stop_typing` handler's effect on `typingUsers`:
`if (typingUsers[receiverId]) { typingUsers[receiverId].delete(senderId);
if (typingUsers[receiverId].size === 0) delete typingUsers[receiverId] }`. -/
def typingClear (senderId receiverId : UserId) : TypingUsers → TypingUsers
  | [] => []
  | (r, ss) :: rest =>
      if r = receiverId then
        if ss.erase senderId = [] then rest
        else (r, ss.erase senderId) :: rest
      else (r, ss) :: typingClear senderId receiverId rest

/-- Well-formedness of `typingUsers` maintained by the JS runtime: object keys
are unique, every stored `Set` is non-empty (the handler deletes a set the
moment it becomes empty) and duplicate-free. -/
def WFTyping (t : TypingUsers) : Prop :=
  (t.map Prod.fst).Nodup ∧ ∀ q ∈ t, q.2 ≠ [] ∧ q.2.Nodup

theorem nodup_not_mem_erase (s : UserId) (l : List UserId) (h : l.Nodup) :
    s ∉ l.erase s := by
  induction l with
  | nil => simp
  | cons a l ih =>
      rcases List.nodup_cons.1 h with ⟨ha, hl⟩
      by_cases hs : a = s
      · subst hs
        simpa [List.erase_cons] using ha
      · intro hmem
        rcases List.mem_cons.1 (by simpa [List.erase_cons, hs] using hmem) with
          h1 | h2
        · exact hs h1.symm
        · exact ih hl h2

theorem nodup_erase (s : UserId) (l : List UserId) (h : l.Nodup) :
    (l.erase s).Nodup := by
  induction l with
  | nil => simp
  | cons a l ih =>
      rcases List.nodup_cons.1 h with ⟨ha, hl⟩
      by_cases hs : a = s
      · simpa [List.erase_cons, hs] using hl
      · have ha' : a ∉ l.erase s := fun hm => ha (List.erase_subset _ _ hm)
        simpa [List.erase_cons, hs] using List.nodup_cons.2 ⟨ha', ih hl⟩

theorem typingSet_of_not_mem (r : UserId) (t : TypingUsers)
    (h : ∀ q ∈ t, q.1 ≠ r) : typingSet r t = [] := by
  induction t with
  | nil => rfl
  | cons q rest ih =>
      obtain ⟨rk, ss⟩ := q
      have hk : rk ≠ r := h (rk, ss) (List.mem_cons_self _ _)
      simp only [typingSet, if_neg hk]
      exact ih fun q hq => h q (List.mem_cons_of_mem _ hq)

theorem typingClear_of_not_mem (s r : UserId) (t : TypingUsers)
    (h : ∀ q ∈ t, q.1 ≠ r) : typingClear s r t = t := by
  induction t with
  | nil => rfl
  | cons q rest ih =>
      obtain ⟨rk, ss⟩ := q
      have hk : rk ≠ r := h (rk, ss) (List.mem_cons_self _ _)
      simp only [typingClear, if_neg hk, List.cons.injEq, true_and]
      exact ih fun q hq => h q (List.mem_cons_of_mem _ hq)

theorem typingClear_keys_sublist (s r : UserId) (t : TypingUsers) :
    List.Sublist ((typingClear s r t).map Prod.fst) (t.map Prod.fst) := by
  induction t with
  | nil => simp [typingClear]
  | cons q rest ih =>
      obtain ⟨rk, ss⟩ := q
      by_cases hk : rk = r
      · by_cases he : ss.erase s = []
        · simp [typingClear, hk, he]
        · simp [typingClear, hk, he]
      · simpa [typingClear, hk] using ih.cons₂ rk

/-- Claim C8: `stop_typing` is idempotent on the typing tracker — clearing the
pair `(s, r)` twice equals clearing it once, the cleared sender is absent from
the recipient's typing set afterwards, clearing a sender who was not typing is
a no-op, and the result is still well-formed: in particular a set that became
empty was removed entirely, never left dangling. -/
theorem idempotent_typing_clear (s r : UserId) (t : TypingUsers)
    (h : WFTyping t) :
    typingClear s r (typingClear s r t) = typingClear s r t ∧
      s ∉ typingSet r (typingClear s r t) ∧
      (s ∉ typingSet r t → typingClear s r t = t) ∧
      WFTyping (typingClear s r t) := by
  induction t with
  | nil => exact ⟨rfl, by simp [typingClear, typingSet], fun _ => rfl, h⟩
  | cons q rest ih =>
      obtain ⟨rk, ss⟩ := q
      have hkeys : rk ∉ rest.map Prod.fst ∧ (rest.map Prod.fst).Nodup := by
        simpa [List.nodup_cons] using h.1
      have hss : ss ≠ [] ∧ ss.Nodup := by
        simpa using h.2 (rk, ss) (List.mem_cons_self _ _)
      have hrest : WFTyping rest :=
        ⟨hkeys.2, fun q hq => h.2 q (List.mem_cons_of_mem _ hq)⟩
      have habsent : ∀ q ∈ rest, q.1 ≠ rk := by
        intro q hq hq1
        exact hkeys.1 (hq1 ▸ List.mem_map_of_mem Prod.fst hq)
      by_cases hk : rk = r
      · subst hk
        by_cases he : ss.erase s = []
        · have hstep : typingClear s rk ((rk, ss) :: rest) = rest := by
            simp [typingClear, he]
          refine ⟨?_, ?_, ?_, ?_⟩
          · rw [hstep]
            exact typingClear_of_not_mem s rk rest habsent
          · rw [hstep, typingSet_of_not_mem rk rest habsent]
            simp
          · intro hs
            have hs' : s ∉ ss := by simpa [typingSet] using hs
            rw [List.erase_of_not_mem hs'] at he
            exact absurd he hss.1
          · rw [hstep]
            exact hrest
        · have hstep :
              typingClear s rk ((rk, ss) :: rest) = (rk, ss.erase s) :: rest := by
            simp [typingClear, he]
          have hnm : s ∉ ss.erase s := nodup_not_mem_erase s ss hss.2
          refine ⟨?_, ?_, ?_, ?_⟩
          · rw [hstep]
            simp [typingClear, List.erase_of_not_mem hnm, he]
          · rw [hstep]
            simpa [typingSet] using hnm
          · intro hs
            have hs' : s ∉ ss := by simpa [typingSet] using hs
            rw [hstep, List.erase_of_not_mem hs']
          · rw [hstep]
            refine ⟨?_, ?_⟩
            · simpa [List.nodup_cons] using hkeys
            · intro q hq
              rcases List.mem_cons.1 hq with h1 | h2
              · subst h1
                exact ⟨he, nodup_erase s ss hss.2⟩
              · exact h.2 q (List.mem_cons_of_mem _ h2)
      · obtain ⟨ih1, ih2, ih3, ih4⟩ := ih hrest
        have hstep :
            typingClear s r ((rk, ss) :: rest) =
              (rk, ss) :: typingClear s r rest := by
          simp [typingClear, hk]
        refine ⟨?_, ?_, ?_, ?_⟩
        · rw [hstep]
          simp [typingClear, hk, ih1]
        · rw [hstep]
          simpa [typingSet, hk] using ih2
        · intro hs
          have hs' : s ∉ typingSet r rest := by simpa [typingSet, hk] using hs
          rw [hstep, ih3 hs']
        · rw [hstep]
          refine ⟨?_, ?_⟩
          · have hsub := (typingClear_keys_sublist s r rest).subset
            have hrk : rk ∉ (typingClear s r rest).map Prod.fst :=
              fun hm => hkeys.1 (hsub hm)
            exact List.nodup_cons.2 ⟨hrk, ih4.1⟩
          · intro q hq
            rcases List.mem_cons.1 hq with h1 | h2
            · subst h1
              exact ⟨hss.1, hss.2⟩
            · exact ih4.2 q h2

/-- Witness for C8 at a concrete well-formed tracker state: recipient `B` has
typing senders `A` and `C`; clearing `(A, B)` is idempotent, removes `A`, and
keeps the tracker well-formed. -/
theorem idempotent_typing_clear_witness :
    WFTyping [("B", ["A", "C"])] ∧
      (typingClear "A" "B" (typingClear "A" "B" [("B", ["A", "C"])]) =
          typingClear "A" "B" [("B", ["A", "C"])] ∧
        "A" ∉ typingSet "B" (typingClear "A" "B" [("B", ["A", "C"])]) ∧
        ("A" ∉ typingSet "B" [("B", ["A", "C"])] →
          typingClear "A" "B" [("B", ["A", "C"])] = [("B", ["A", "C"])]) ∧
        WFTyping (typingClear "A" "B" [("B", ["A", "C"])])) :=
  ⟨by constructor <;> decide,
    idempotent_typing_clear "A" "B" [("B", ["A", "C"])]
      (by constructor <;> decide)⟩

/-! ## The per-socket event handlers on the full shared state -/

/-- The shared mutable state of the socket layer: `connectedUsers` and
`typingUsers`. -/
structure ServerState where
  connectedUsers : Presence
  typingUsers : TypingUsers
deriving DecidableEq

/-- The `register` handler: binds `userId` to the socket; emits nothing. -/
def onRegister (userId : UserId) (sid : SocketId) (st : ServerState) :
    ServerState × List Emit :=
  ({ st with connectedUsers := register userId sid st.connectedUsers }, [])

/-- The `disconnect` handler: scans `connectedUsers` for the disconnecting
socket id and deletes the first matching entry.  It does not touch
`typingUsers` and emits nothing. -/
def onDisconnect (sid : SocketId) (st : ServerState) :
    ServerState × List Emit :=
  ({ st with connectedUsers := disconnect sid st.connectedUsers }, [])

/-- The `typing` handler: adds the sender to the recipient's typing set, then
emits `user_typing` to the recipient's socket if the recipient is online. -/
def onTyping (senderId receiverId : UserId) (st : ServerState) :
    ServerState × List Emit :=
  ({ st with typingUsers := typingAdd senderId receiverId st.typingUsers },
    match lookup receiverId st.connectedUsers with
    | some rsid => [Emit.userTyping rsid senderId]
    | none => [])

/-- The `stop_typing` handler: removes the sender from the recipient's typing
set (dropping the set if it became empty), then emits `user_stopped_typing` to
the recipient's socket if the recipient is online. -/
def onStopTyping (senderId receiverId : UserId) (st : ServerState) :
    ServerState × List Emit :=
  ({ st with typingUsers := typingClear senderId receiverId st.typingUsers },
    match lookup receiverId st.connectedUsers with
    | some rsid => [Emit.userStoppedTyping rsid senderId]
    | none => [])

/-- Claim C4 fails on the code: after `A` (socket `H1`) sends `typing` for
recipient `B` and then disconnects, the `disconnect` handler removes `A` from
`connectedUsers` but leaves `A` in `B`'s typing set and emits no event at all
— in particular no `user_stopped_typing` ever reaches `B`. -/
theorem typing_not_cleared_on_disconnect :
    ("A" ∈ typingSet "B"
        (onDisconnect "H1"
            ((onTyping "A" "B"
                ((onRegister "B" "H2"
                    ((onRegister "A" "H1" ⟨[], []⟩).1)).1)).1)).1.typingUsers) ∧
      (onDisconnect "H1"
          ((onTyping "A" "B"
              ((onRegister "B" "H2"
                  ((onRegister "A" "H1" ⟨[], []⟩).1)).1)).1)).2 = [] ∧
      lookup "A"
          (onDisconnect "H1"
              ((onTyping "A" "B"
                  ((onRegister "B" "H2"
                      ((onRegister "A" "H1" ⟨[], []⟩).1)).1)).1)).1.connectedUsers =
        none := by
  refine ⟨?_, rfl, ?_⟩ <;> decide

end ChatApp
